import Mathlib

-- Verification of the saxi plot server (src/server.ts): the plot execution
-- engine (doPlot / simulatePlot), the notification hub (broadcast), the
-- connection supervisor (waitForEbb / ebbs and its consumer loop), the
-- websocket connection and message handlers, and the /plot endpoint.
--
-- The embedding turns each stateful routine into a pure function from its
-- inputs and an environment oracle (which device operations succeed, when a
-- cancellation request arrives, which sends fail) to the finite trace of
-- observable events it performs, in order, plus its outcome.

namespace Saxi

/-- Modelled from the spec: the motion-plan structures (`Plan`, `PenMotion`,
and the other motion kinds) live in `./planning`, which is not part of the
source under verification. The spec describes a Plan as an ordered immutable
sequence of Motions, each of which is one of several kinds (at minimum a
pen-height motion, carrying its positions, and a general positional/drawing
motion), each exposing an estimated duration. `pen` plays the role of
`PenMotion` (with its `initialPos`); `xy` stands for every non-pen kind. -/
inductive Motion where
  | pen (initialPos : Int) (height : Int) (dur : Nat)
  | xy (dur : Nat)
deriving DecidableEq

/-- `motion.duration()`: the estimated duration of a motion (treated as an
opaque number; the source's floating-point seconds are modelled as `Nat`). -/
def Motion.duration : Motion → Nat
  | .pen _ _ d => d
  | .xy d => d

/-- The predicate `x instanceof PenMotion` from server.ts line 96. -/
def Motion.isPen : Motion → Bool
  | .pen _ _ _ => true
  | .xy _ => false

/-- `PenMotion.initialPos`. On a non-pen motion the source would not read
this field (the `find?` below only ever produces pen motions); the value on
`xy` is a dummy. -/
def Motion.initialPos : Motion → Int
  | .pen p _ _ => p
  | .xy _ => 0

/-- Modelled from the spec: a Plan is an ordered immutable sequence of
Motions (`plan.motions`). -/
structure Plan where
  motions : List Motion
deriving DecidableEq

/-- Modelled from the spec: `Device.Axidraw.penPctToPos` lives in
`./planning`, which is not under verification. The spec only says the
cancellation path raises the pen fully up, i.e. commands the height
`penPctToPos 0`; the numeric mapping itself is opaque to this development
and no theorem depends on it. -/
def penPctToPos (pct : Nat) : Int := Int.ofNat pct

/-- One observable event of the server: device commands issued to the EBB,
sleeps, broadcasts to the observer set, direct replies, console error logs,
and wake-lock actions. Device-command events record the attempt (the command
was issued); whether the corresponding asynchronous operation succeeds is
decided by the environment oracle. -/
inductive Ev where
  | enableMotors (n : Nat)
  | setPenHeight (pos : Int) (rate : Nat)
  | executeMotion (m : Motion)
  | sleep (ms : Nat)
  | waitUntilMotorsIdle
  | disableMotors
  | progress (i : Nat)
  | bCancelled
  | bFinished
  | bDev (path : Option String)
  | pong
  | logErr
  | acquireWake
  | warnWakeFailed
  | releaseWake
deriving DecidableEq

/-- Events that are broadcasts through the notification hub (the messages
`progress`, `cancelled`, `finished`, `dev` of server.ts). -/
def Ev.isBroadcast : Ev → Bool
  | .progress _ => true
  | .bCancelled => true
  | .bFinished => true
  | .bDev _ => true
  | _ => false

/-- The subsequence of a trace visible to observers: its broadcasts. -/
def broadcasts (t : List Ev) : List Ev := t.filter Ev.isBroadcast

def Ev.isProgress : Ev → Bool
  | .progress _ => true
  | _ => false

def Ev.isExec : Ev → Bool
  | .executeMotion _ => true
  | _ => false

/-- Errors a plot execution can end in: a rejected device operation
(`dev`), or the TypeError thrown at server.ts line 97 when
`plan.motions.find(x => x instanceof PenMotion)` returned `undefined` and
`.initialPos` is read from it. -/
inductive Err where
  | dev
  | typeError
deriving DecidableEq

/-- Result of one plot execution: its event trace, its outcome (normal
return or a propagated exception), and the final value of the process-wide
`cancelRequested` flag. -/
structure RunResult where
  trace : List Ev
  result : Except Err Unit
  flag : Bool

/-- How the loop of `doPlot` exits: it ran out of motions, it observed the
cancellation flag and broke, or a device operation rejected. -/
inductive LoopExit where
  | completed
  | cancelled
  | failed
deriving DecidableEq

/-- Environment oracle for the hardware path: which of `doPlot`'s device
operations succeed, one field per call site (`execOk i` decides the
`executeMotion` of the motion at index `i`). -/
structure HwEnv where
  enableOk : Bool
  initialPenOk : Bool
  execOk : Nat → Bool
  raisePenOk : Bool
  waitIdleOk : Bool
  disableOk : Bool

/-- The environment in which every device operation succeeds. -/
def allOk : HwEnv :=
  { enableOk := true, initialPenOk := true, execOk := fun _ => true,
    raisePenOk := true, waitIdleOk := true, disableOk := true }

/-- The loop of server.ts lines 100-106. `reqs i = true` means a
cancellation request (`POST /cancel`, line 80) arrives while motion `i` is
executing — the only awaits at which the loop's check at line 104 can first
observe the flag. The flag is threaded: it is read once after each motion
completes, never pre-emptively. Returns the trace, the exit kind, and the
final flag value. -/
def doPlotLoop (env : HwEnv) (reqs : Nat → Bool) :
    List Motion → Nat → Bool → List Ev × LoopExit × Bool
  | [], _, flag => ([], LoopExit.completed, flag)
  | m :: rest, i, flag =>
    let evs := [Ev.progress i, Ev.executeMotion m]
    let flag1 := flag || reqs i
    if env.execOk i then
      if flag1 then (evs, LoopExit.cancelled, flag1)
      else
        let r := doPlotLoop env reqs rest (i + 1) flag1
        (evs ++ r.1, r.2.1, r.2.2)
    else (evs, LoopExit.failed, flag1)

/-- Server.ts lines 114-115: the trailing `waitUntilMotorsIdle` and
`disableMotors` at the end of `doPlot` (the source has no try/finally;
these two statements simply follow the broadcast). -/
def finishUp (env : HwEnv) (t : List Ev) (flag : Bool) : RunResult :=
  let t1 := t ++ [Ev.waitUntilMotorsIdle]
  if env.waitIdleOk then
    let t2 := t1 ++ [Ev.disableMotors]
    if env.disableOk then ⟨t2, Except.ok (), flag⟩
    else ⟨t2, Except.error Err.dev, flag⟩
  else ⟨t1, Except.error Err.dev, flag⟩

/-- `doPlot` (server.ts lines 94-116): enable motors; find the first
`PenMotion` and set the pen to its `initialPos` at rate 1000 (a `TypeError`
propagates if there is none, before any broadcast); clear `cancelRequested`
(line 99, so `flag0`, the flag value on entry, only survives failures that
precede the clear); run the loop; on a cancelled exit raise the pen to
`penPctToPos 0`, broadcast `cancelled`, clear the flag; on a completed exit
broadcast `finished`; then wait for idle and disable motors. A rejected
device operation propagates immediately: nothing after it runs. -/
def doPlot (env : HwEnv) (reqs : Nat → Bool) (flag0 : Bool) (plan : Plan) :
    RunResult :=
  let t1 := [Ev.enableMotors 2]
  if env.enableOk then
    match plan.motions.find? Motion.isPen with
    | none => ⟨t1, Except.error Err.typeError, flag0⟩
    | some pm =>
      let t2 := t1 ++ [Ev.setPenHeight pm.initialPos 1000]
      if env.initialPenOk then
        let r := doPlotLoop env reqs plan.motions 0 false
        let t3 := t2 ++ r.1
        match r.2.1 with
        | LoopExit.failed => ⟨t3, Except.error Err.dev, r.2.2⟩
        | LoopExit.cancelled =>
          let t4 := t3 ++ [Ev.setPenHeight (penPctToPos 0) 1000]
          if env.raisePenOk then finishUp env (t4 ++ [Ev.bCancelled]) false
          else ⟨t4, Except.error Err.dev, r.2.2⟩
        | LoopExit.completed => finishUp env (t3 ++ [Ev.bFinished]) r.2.2
      else ⟨t2, Except.error Err.dev, flag0⟩
  else ⟨t1, Except.error Err.dev, flag0⟩

/-- The loop of server.ts lines 120-127: identical control structure to the
hardware loop, but the motion is "executed" by sleeping for
`motion.duration() * 1000` milliseconds and nothing can fail. Returns the
trace, whether the loop broke on the cancellation flag, and the final flag. -/
def simPlotLoop (reqs : Nat → Bool) :
    List Motion → Nat → Bool → List Ev × Bool × Bool
  | [], _, flag => ([], false, flag)
  | m :: rest, i, flag =>
    let evs := [Ev.progress i, Ev.sleep (m.duration * 1000)]
    let flag1 := flag || reqs i
    if flag1 then (evs, true, flag1)
    else
      let r := simPlotLoop reqs rest (i + 1) flag1
      (evs ++ r.1, r.2.1, r.2.2)

/-- `simulatePlot` (server.ts lines 118-134): clear `cancelRequested`
(line 119 — the entry value of the flag is discarded, hence the unused
parameter), run the sleep loop, then broadcast `cancelled` (clearing the
flag) or `finished`. No device command is ever issued and nothing fails. -/
def simulatePlot (reqs : Nat → Bool) (_flag0 : Bool) (plan : Plan) :
    RunResult :=
  let r := simPlotLoop reqs plan.motions 0 false
  if r.2.1 then ⟨r.1 ++ [Ev.bCancelled], Except.ok (), false⟩
  else ⟨r.1 ++ [Ev.bFinished], Except.ok (), r.2.2⟩

/-- The index of the first cancellation request in the window
`[i0, i0 + n)`, if any: the motion index at which a run of the loop over
`n` motions starting at index `i0` observes the flag. -/
def findCancel (reqs : Nat → Bool) : Nat → Nat → Option Nat
  | _, 0 => none
  | i0, n + 1 => if reqs i0 then some i0 else findCancel reqs (i0 + 1) n

/-- The two events one iteration of the simulation loop appends for the
motion at index `i`. -/
def simStep (i : Nat) (m : Motion) : List Ev :=
  [Ev.progress i, Ev.sleep (m.duration * 1000)]

/-- The two events one iteration of the hardware loop appends for the
motion at index `i`. -/
def hwStep (i : Nat) (m : Motion) : List Ev :=
  [Ev.progress i, Ev.executeMotion m]

/-- The concatenation of `f i m` over the motions of a list, indexing from
`i0`: the shape of a loop trace. -/
def interleave (f : Nat → Motion → List Ev) : List Motion → Nat → List Ev
  | [], _ => []
  | m :: rest, i => f i m ++ interleave f rest (i + 1)

/-- The broadcast sequence the spec promises for a run over `n` motions:
all indices in order then `finished` if no cancellation is observed, the
indices up to the first observed cancellation then `cancelled` otherwise. -/
def expectedBroadcasts (reqs : Nat → Bool) (n : Nat) : List Ev :=
  match findCancel reqs 0 n with
  | none => (List.range n).map Ev.progress ++ [Ev.bFinished]
  | some k => (List.range (k + 1)).map Ev.progress ++ [Ev.bCancelled]

/-- The full trace the spec predicts for `simulatePlot`. -/
def simExpected (reqs : Nat → Bool) (ms : List Motion) : List Ev :=
  match findCancel reqs 0 ms.length with
  | none => interleave simStep ms 0 ++ [Ev.bFinished]
  | some k => interleave simStep (ms.take (k + 1)) 0 ++ [Ev.bCancelled]

/-- The body of the trace the spec predicts for a failure-free `doPlot`:
the loop trace and the terminal broadcast (with the pen raised to
`penPctToPos 0` just before a `cancelled`). -/
def hwBody (reqs : Nat → Bool) (ms : List Motion) : List Ev :=
  match findCancel reqs 0 ms.length with
  | none => interleave hwStep ms 0 ++ [Ev.bFinished]
  | some k =>
    interleave hwStep (ms.take (k + 1)) 0 ++
      [Ev.setPenHeight (penPctToPos 0) 1000, Ev.bCancelled]

/-- The full trace the spec predicts for a failure-free `doPlot` whose
first pen motion has initial position `p0`. -/
def hwExpected (reqs : Nat → Bool) (ms : List Motion) (p0 : Int) : List Ev :=
  Ev.enableMotors 2 :: Ev.setPenHeight p0 1000 ::
    (hwBody reqs ms ++ [Ev.waitUntilMotorsIdle, Ev.disableMotors])

/-- The view of a hardware trace an observer of the simulation would have:
each `executeMotion` becomes the sleep for that motion's duration, device
commands disappear, broadcasts stay. -/
def simView : Ev → Option Ev
  | Ev.executeMotion m => some (Ev.sleep (m.duration * 1000))
  | Ev.enableMotors _ => none
  | Ev.setPenHeight _ _ => none
  | Ev.waitUntilMotorsIdle => none
  | Ev.disableMotors => none
  | e => some e

/-- One iteration of the supervisor built from `waitForEbb` (server.ts
lines 171-179) and the generator `ebbs` (lines 181-201), classified by its
outcome: `noCandidate` — `EBB.list()` was empty, so `waitForEbb` sleeps
5000 ms and retries; `openFail` — a candidate was found but `tryOpen`
rejected, so the catch at line 195 logs the error and sleeps 5000 ms;
`openOk addr` — the open succeeded, the generator yields the handle (whose
port path is `addr`) and, once the link closes, yields `null`. -/
inductive SupStep where
  | noCandidate
  | openFail
  | openOk (addr : String)
deriving DecidableEq

/-- Steps on which no connection is established. -/
def SupStep.isFail : SupStep → Bool
  | .noCandidate => true
  | .openFail => true
  | .openOk _ => false

/-- The events one supervisor iteration produces, as seen through the
consumer loop `connect` (server.ts lines 138-143), which broadcasts a `dev`
message with the handle's port path on each yielded handle and a `dev`
message with `null` on each yielded `null`. -/
def supStep : SupStep → List Ev
  | SupStep.noCandidate => [Ev.sleep 5000]
  | SupStep.openFail => [Ev.logErr, Ev.sleep 5000]
  | SupStep.openOk a => [Ev.bDev (some a), Ev.bDev none]

/-- The trace of the supervisor over a finite prefix of its (unending)
iteration sequence. The loop itself is `while (true)`: every script extends,
so a finite trace is always a proper prefix of the behaviour, never a
termination. -/
def supRun : List SupStep → List Ev
  | [] => []
  | s :: rest => supStep s ++ supRun rest

/-- `ws.send` inside `broadcast` (server.ts line 87), which may throw for a
client (e.g. a closed transport); `sendOk` is the per-client oracle. -/
def wsSend (sendOk : Nat → Bool) (c : Nat) : Except Unit Unit :=
  if sendOk c then Except.ok () else Except.error ()

/-- What `broadcast` did for one client: delivered, or caught the send
error and logged it (the catch at server.ts lines 88-90). -/
inductive SendOutcome where
  | delivered (client : Nat)
  | caughtAndLogged (client : Nat)
deriving DecidableEq

/-- `broadcast` (server.ts lines 84-92): for each registered client in
order, try to send; a throw is caught and logged and the iteration
continues. The function is total — no error reaches the caller. -/
def broadcastFn (sendOk : Nat → Bool) : List Nat → List SendOutcome
  | [] => []
  | c :: rest =>
    (match wsSend sendOk c with
     | Except.ok _ => SendOutcome.delivered c
     | Except.error _ => SendOutcome.caughtAndLogged c) :: broadcastFn sendOk rest

/-- The actions of the connection handler (server.ts lines 28-51), in
source order: push the socket onto `clients`, install the message handler,
send the new socket the current `dev` state (line 47), install the close
handler. -/
inductive RegAction where
  | addClient (ws : Nat)
  | installMessageHandler
  | sendToNew (msg : Ev)
  | installCloseHandler
deriving DecidableEq

/-- The connection handler, as the list of actions it performs for a new
socket `ws` when the current device path is `devPath`
(`ebb ? ebb.port.path : null`). -/
def onConnection (devPath : Option String) (ws : Nat) : List RegAction :=
  [RegAction.addClient ws, RegAction.installMessageHandler,
   RegAction.sendToNew (Ev.bDev devPath), RegAction.installCloseHandler]

/-- The messages the handler sends directly to the newly registered
socket. -/
def RegAction.sentMsg : RegAction → Option Ev
  | .sendToNew m => some m
  | _ => none

/-- An inbound websocket message (server.ts lines 30-45), keyed by its `c`
discriminant; `unknown` is any tag the switch does not handle. -/
inductive InMsg where
  | ping
  | limp
  | setPenHeight (height : Int) (rate : Nat)
  | unknown

/-- The message handler (server.ts lines 30-45): `ping` replies `pong`;
`limp` and `setPenHeight` issue their device command only when a device is
connected (`if (ebb)`), and otherwise do nothing at all. The returned list
is every event the handler performs. -/
def onMessage (ebbPresent : Bool) : InMsg → List Ev
  | InMsg.ping => [Ev.pong]
  | InMsg.limp => if ebbPresent then [Ev.disableMotors] else []
  | InMsg.setPenHeight h r => if ebbPresent then [Ev.setPenHeight h r] else []
  | InMsg.unknown => []

/-- The dispatch at server.ts line 69: hardware path when a device handle
exists, simulation otherwise. -/
def plotRun (ebbPresent : Bool) (env : HwEnv) (reqs : Nat → Bool)
    (flag0 : Bool) (plan : Plan) : RunResult :=
  if ebbPresent then doPlot env reqs flag0 plan
  else simulatePlot reqs flag0 plan

/-- The `/plot` handler body (server.ts lines 54-77): try to acquire the
wake lock (`wakeOk` — a throw is caught and only a warning is logged); run
the plot inside a try/finally whose finally releases the wake lock if one
was acquired; the plot's own outcome (including a propagated device error)
is the handler's outcome, re-raised after the release. -/
def plotEndpoint (wakeOk ebbPresent : Bool) (env : HwEnv)
    (reqs : Nat → Bool) (flag0 : Bool) (plan : Plan) :
    List Ev × Except Err Unit :=
  let acq := if wakeOk then [Ev.acquireWake] else [Ev.warnWakeFailed]
  let r := plotRun ebbPresent env reqs flag0 plan
  let rel := if wakeOk then [Ev.releaseWake] else []
  (acq ++ r.trace ++ rel, r.result)

/-- The environment in which every `executeMotion` rejects (and every other
device operation would succeed). -/
def execFailEnv : HwEnv := { allOk with execOk := fun _ => false }

-- Characterization of findCancel.

theorem findCancel_none_iff (reqs : Nat → Bool) :
    ∀ n i0, findCancel reqs i0 n = none ↔ ∀ j, j < n → reqs (i0 + j) = false := by
  intro n
  induction n with
  | zero =>
    intro i0
    constructor
    · intro _ j hj; omega
    · intro _; rfl
  | succ n ih =>
    intro i0
    constructor
    · intro hc j hj
      cases h : reqs i0 with
      | true => simp [findCancel, h] at hc
      | false =>
        simp only [findCancel, h, Bool.false_eq_true, if_false] at hc
        cases j with
        | zero => simpa using h
        | succ j =>
          have := (ih (i0 + 1)).mp hc j (by omega)
          rwa [show i0 + 1 + j = i0 + (j + 1) from by omega] at this
    · intro hall
      have h0 : reqs i0 = false := by simpa using hall 0 (by omega)
      simp only [findCancel, h0, Bool.false_eq_true, if_false]
      refine (ih (i0 + 1)).mpr (fun j hj => ?_)
      have := hall (j + 1) (by omega)
      rwa [show i0 + (j + 1) = i0 + 1 + j from by omega] at this

theorem findCancel_some (reqs : Nat → Bool) :
    ∀ n i0 k, findCancel reqs i0 n = some k →
      i0 ≤ k ∧ k < i0 + n ∧ reqs k = true ∧
        ∀ j, i0 ≤ j → j < k → reqs j = false := by
  intro n
  induction n with
  | zero => intro i0 k h; simp [findCancel] at h
  | succ n ih =>
    intro i0 k h
    cases hr : reqs i0 with
    | true =>
      simp only [findCancel, hr, if_true, Option.some.injEq] at h
      subst h
      exact ⟨Nat.le_refl _, by omega, hr, fun j hj1 hj2 => by omega⟩
    | false =>
      simp only [findCancel, hr, Bool.false_eq_true, if_false] at h
      obtain ⟨h1, h2, h3, h4⟩ := ih (i0 + 1) k h
      refine ⟨by omega, by omega, h3, ?_⟩
      intro j hj1 hj2
      rcases Nat.eq_or_lt_of_le hj1 with heq | hlt
      · rw [← heq]; exact hr
      · exact h4 j (by omega) hj2

theorem findCancel_intro (reqs : Nat → Bool) :
    ∀ n i0 k, i0 ≤ k → k < i0 + n → reqs k = true →
      (∀ j, i0 ≤ j → j < k → reqs j = false) →
      findCancel reqs i0 n = some k := by
  intro n
  induction n with
  | zero => intro i0 k h1 h2 _ _; omega
  | succ n ih =>
    intro i0 k h1 h2 h3 h4
    rcases Nat.eq_or_lt_of_le h1 with heq | hlt
    · subst heq
      simp [findCancel, h3]
    · have hr : reqs i0 = false := h4 i0 (Nat.le_refl _) hlt
      simp only [findCancel, hr, Bool.false_eq_true, if_false]
      exact ih (i0 + 1) k (by omega) (by omega) h3
        (fun j hj1 hj2 => h4 j (by omega) hj2)

-- Characterization of the two plot loops in the failure-free environment.

theorem simPlotLoop_no_cancel (reqs : Nat → Bool) :
    ∀ (ms : List Motion) (i0 : Nat),
      (∀ j, j < ms.length → reqs (i0 + j) = false) →
      simPlotLoop reqs ms i0 false = (interleave simStep ms i0, false, false) := by
  intro ms
  induction ms with
  | nil => intro i0 _; rfl
  | cons m rest ih =>
    intro i0 h
    have h0 : reqs i0 = false := by simpa using h 0 (by simp)
    have hrec := ih (i0 + 1) (fun j hj => by
      have := h (j + 1) (by simpa using Nat.succ_lt_succ hj)
      rwa [show i0 + (j + 1) = i0 + 1 + j from by omega] at this)
    simp [simPlotLoop, h0, hrec, interleave, simStep]

theorem simPlotLoop_cancel (reqs : Nat → Bool) :
    ∀ (ms : List Motion) (i0 k : Nat), k < ms.length →
      reqs (i0 + k) = true → (∀ j, j < k → reqs (i0 + j) = false) →
      simPlotLoop reqs ms i0 false =
        (interleave simStep (ms.take (k + 1)) i0, true, true) := by
  intro ms
  induction ms with
  | nil => intro i0 k hk; simp at hk
  | cons m rest ih =>
    intro i0 k hk h1 h2
    cases k with
    | zero =>
      have h0 : reqs i0 = true := by simpa using h1
      simp [simPlotLoop, h0, interleave, simStep]
    | succ k =>
      have h0 : reqs i0 = false := by simpa using h2 0 (by omega)
      have hk' : k < rest.length := by simp only [List.length_cons] at hk; omega
      have hrec := ih (i0 + 1) k hk'
        (by rwa [show i0 + 1 + k = i0 + (k + 1) from by omega])
        (fun j hj => by
          have := h2 (j + 1) (by omega)
          rwa [show i0 + (j + 1) = i0 + 1 + j from by omega] at this)
      simp [simPlotLoop, h0, hrec, interleave, simStep, List.take_succ_cons]

theorem doPlotLoop_no_cancel (env : HwEnv) (reqs : Nat → Bool)
    (hex : ∀ i, env.execOk i = true) :
    ∀ (ms : List Motion) (i0 : Nat),
      (∀ j, j < ms.length → reqs (i0 + j) = false) →
      doPlotLoop env reqs ms i0 false =
        (interleave hwStep ms i0, LoopExit.completed, false) := by
  intro ms
  induction ms with
  | nil => intro i0 _; rfl
  | cons m rest ih =>
    intro i0 h
    have h0 : reqs i0 = false := by simpa using h 0 (by simp)
    have hrec := ih (i0 + 1) (fun j hj => by
      have := h (j + 1) (by simpa using Nat.succ_lt_succ hj)
      rwa [show i0 + (j + 1) = i0 + 1 + j from by omega] at this)
    simp [doPlotLoop, hex i0, h0, hrec, interleave, hwStep]

theorem doPlotLoop_cancel (env : HwEnv) (reqs : Nat → Bool)
    (hex : ∀ i, env.execOk i = true) :
    ∀ (ms : List Motion) (i0 k : Nat), k < ms.length →
      reqs (i0 + k) = true → (∀ j, j < k → reqs (i0 + j) = false) →
      doPlotLoop env reqs ms i0 false =
        (interleave hwStep (ms.take (k + 1)) i0, LoopExit.cancelled, true) := by
  intro ms
  induction ms with
  | nil => intro i0 k hk; simp at hk
  | cons m rest ih =>
    intro i0 k hk h1 h2
    cases k with
    | zero =>
      have h0 : reqs i0 = true := by simpa using h1
      simp [doPlotLoop, hex i0, h0, interleave, hwStep]
    | succ k =>
      have h0 : reqs i0 = false := by simpa using h2 0 (by omega)
      have hk' : k < rest.length := by simp only [List.length_cons] at hk; omega
      have hrec := ih (i0 + 1) k hk'
        (by rwa [show i0 + 1 + k = i0 + (k + 1) from by omega])
        (fun j hj => by
          have := h2 (j + 1) (by omega)
          rwa [show i0 + (j + 1) = i0 + 1 + j from by omega] at this)
      simp [doPlotLoop, hex i0, h0, hrec, interleave, hwStep, List.take_succ_cons]

-- Full characterization of the two plot executions (hardware in the
-- failure-free environment).

theorem simulatePlot_char (reqs : Nat → Bool) (f0 : Bool) (plan : Plan) :
    simulatePlot reqs f0 plan =
      ⟨simExpected reqs plan.motions, Except.ok (), false⟩ := by
  cases hc : findCancel reqs 0 plan.motions.length with
  | none =>
    have h := (findCancel_none_iff reqs plan.motions.length 0).mp hc
    have hl := simPlotLoop_no_cancel reqs plan.motions 0 h
    simp [simulatePlot, hl, simExpected, hc]
  | some k =>
    obtain ⟨h1, h2, h3, h4⟩ := findCancel_some reqs plan.motions.length 0 k hc
    have hl := simPlotLoop_cancel reqs plan.motions 0 k (by omega)
      (by simpa using h3) (fun j hj => by simpa using h4 j (by omega) hj)
    simp [simulatePlot, hl, simExpected, hc]

theorem doPlot_char (reqs : Nat → Bool) (f0 : Bool) (plan : Plan) (pm : Motion)
    (hpm : plan.motions.find? Motion.isPen = some pm) :
    doPlot allOk reqs f0 plan =
      ⟨hwExpected reqs plan.motions pm.initialPos, Except.ok (), false⟩ := by
  have hex : ∀ i, allOk.execOk i = true := fun _ => rfl
  cases hc : findCancel reqs 0 plan.motions.length with
  | none =>
    have h := (findCancel_none_iff reqs plan.motions.length 0).mp hc
    have hl := doPlotLoop_no_cancel allOk reqs hex plan.motions 0 h
    simp [doPlot, hpm, hl, finishUp, hwExpected, hwBody, hc,
      show allOk.enableOk = true from rfl, show allOk.initialPenOk = true from rfl,
      show allOk.raisePenOk = true from rfl, show allOk.waitIdleOk = true from rfl,
      show allOk.disableOk = true from rfl]
  | some k =>
    obtain ⟨h1, h2, h3, h4⟩ := findCancel_some reqs plan.motions.length 0 k hc
    have hl := doPlotLoop_cancel allOk reqs hex plan.motions 0 k (by omega)
      (by simpa using h3) (fun j hj => by simpa using h4 j (by omega) hj)
    simp [doPlot, hpm, hl, finishUp, hwExpected, hwBody, hc,
      show allOk.enableOk = true from rfl, show allOk.initialPenOk = true from rfl,
      show allOk.raisePenOk = true from rfl, show allOk.waitIdleOk = true from rfl,
      show allOk.disableOk = true from rfl]

-- Broadcast and membership structure of loop traces.

theorem broadcasts_interleave_sim :
    ∀ (ms : List Motion) (i0 : Nat),
      broadcasts (interleave simStep ms i0) =
        (List.range' i0 ms.length).map Ev.progress := by
  intro ms
  induction ms with
  | nil => intro i0; rfl
  | cons m rest ih =>
    intro i0
    simp [interleave, simStep, broadcasts, List.range', Ev.isBroadcast]
    simpa [broadcasts] using ih (i0 + 1)

theorem broadcasts_interleave_hw :
    ∀ (ms : List Motion) (i0 : Nat),
      broadcasts (interleave hwStep ms i0) =
        (List.range' i0 ms.length).map Ev.progress := by
  intro ms
  induction ms with
  | nil => intro i0; rfl
  | cons m rest ih =>
    intro i0
    simp [interleave, hwStep, broadcasts, List.range', Ev.isBroadcast]
    simpa [broadcasts] using ih (i0 + 1)

theorem progress_interleave_sim_mem :
    ∀ (ms : List Motion) (i0 j : Nat),
      Ev.progress j ∈ interleave simStep ms i0 → i0 ≤ j ∧ j < i0 + ms.length := by
  intro ms
  induction ms with
  | nil => intro i0 j h; simp [interleave] at h
  | cons m rest ih =>
    intro i0 j h
    simp only [interleave, simStep, List.mem_append, List.mem_cons,
      List.not_mem_nil, or_false] at h
    rcases h with h | h
    · rcases h with h | h
      · cases h; simp
      · cases h
    · have := ih (i0 + 1) j h
      simp only [List.length_cons]
      omega

theorem progress_interleave_hw_mem :
    ∀ (ms : List Motion) (i0 j : Nat),
      Ev.progress j ∈ interleave hwStep ms i0 → i0 ≤ j ∧ j < i0 + ms.length := by
  intro ms
  induction ms with
  | nil => intro i0 j h; simp [interleave] at h
  | cons m rest ih =>
    intro i0 j h
    simp only [interleave, hwStep, List.mem_append, List.mem_cons,
      List.not_mem_nil, or_false] at h
    rcases h with h | h
    · rcases h with h | h
      · cases h; simp
      · cases h
    · have := ih (i0 + 1) j h
      simp only [List.length_cons]
      omega

theorem execCount_interleave_hw :
    ∀ (ms : List Motion) (i0 : Nat),
      ((interleave hwStep ms i0).filter Ev.isExec).length = ms.length := by
  intro ms
  induction ms with
  | nil => intro i0; rfl
  | cons m rest ih =>
    intro i0
    simp [interleave, hwStep, Ev.isExec, ih (i0 + 1)]

theorem filterMap_interleave_hw :
    ∀ (ms : List Motion) (i0 : Nat),
      (interleave hwStep ms i0).filterMap simView = interleave simStep ms i0 := by
  intro ms
  induction ms with
  | nil => intro i0; rfl
  | cons m rest ih =>
    intro i0
    simp [interleave, hwStep, simStep, simView, ih (i0 + 1)]

theorem broadcasts_append (a b : List Ev) :
    broadcasts (a ++ b) = broadcasts a ++ broadcasts b := by
  simp [broadcasts]

theorem broadcasts_cons_skip (e : Ev) (t : List Ev) (h : e.isBroadcast = false) :
    broadcasts (e :: t) = broadcasts t := by
  simp [broadcasts, h]

theorem broadcasts_simExpected (reqs : Nat → Bool) (ms : List Motion) :
    broadcasts (simExpected reqs ms) = expectedBroadcasts reqs ms.length := by
  cases hc : findCancel reqs 0 ms.length with
  | none =>
    simp only [simExpected, expectedBroadcasts, hc]
    rw [broadcasts_append, broadcasts_interleave_sim, List.range_eq_range']
    rfl
  | some k =>
    simp only [simExpected, expectedBroadcasts, hc]
    rw [broadcasts_append, broadcasts_interleave_sim, List.range_eq_range']
    obtain ⟨-, h2, -, -⟩ := findCancel_some reqs ms.length 0 k hc
    rw [List.length_take, Nat.min_eq_left (by omega)]
    rfl

theorem broadcasts_hwExpected (reqs : Nat → Bool) (ms : List Motion) (p0 : Int) :
    broadcasts (hwExpected reqs ms p0) = expectedBroadcasts reqs ms.length := by
  simp only [hwExpected]
  rw [broadcasts_cons_skip (Ev.enableMotors 2) _ rfl,
    broadcasts_cons_skip (Ev.setPenHeight p0 1000) _ rfl,
    broadcasts_append,
    show broadcasts [Ev.waitUntilMotorsIdle, Ev.disableMotors] = [] from rfl,
    List.append_nil]
  cases hc : findCancel reqs 0 ms.length with
  | none =>
    simp only [hwBody, expectedBroadcasts, hc]
    rw [broadcasts_append, broadcasts_interleave_hw, List.range_eq_range']
    rfl
  | some k =>
    simp only [hwBody, expectedBroadcasts, hc]
    rw [broadcasts_append, broadcasts_interleave_hw, List.range_eq_range']
    obtain ⟨-, h2, -, -⟩ := findCancel_some reqs ms.length 0 k hc
    rw [List.length_take, Nat.min_eq_left (by omega)]
    rfl

theorem filterMap_hwExpected (reqs : Nat → Bool) (ms : List Motion) (p0 : Int) :
    (hwExpected reqs ms p0).filterMap simView = simExpected reqs ms := by
  cases hc : findCancel reqs 0 ms.length with
  | none =>
    simp [hwExpected, hwBody, simExpected, hc, List.filterMap_append,
      filterMap_interleave_hw, simView]
  | some k =>
    simp [hwExpected, hwBody, simExpected, hc, List.filterMap_append,
      filterMap_interleave_hw, simView]

/-- C1, as stated, is false: an execution whose cancellation is observed
before the last motion broadcasts fewer than N progress events. For the
2-motion plan with a cancellation request during motion 0, the simulation
path broadcasts exactly one progress event (index 0) and then `cancelled`,
not the N = 2 progress events the claim requires before the terminal
event. -/
theorem c1_counterexample :
    broadcasts (simulatePlot (fun _ => true) false
        ⟨[Motion.xy 1, Motion.xy 2]⟩).trace = [Ev.progress 0, Ev.bCancelled] ∧
    ((broadcasts (simulatePlot (fun _ => true) false
        ⟨[Motion.xy 1, Motion.xy 2]⟩).trace).filter Ev.isProgress).length ≠ 2 :=
  ⟨rfl, by decide⟩

/-- C1 (amended): one execution of the plot engine (hardware path with every
device operation succeeding and a pen motion present, or simulation path)
broadcasts progress events with indices 0..N-1 in strictly increasing order
followed by the terminal `finished` when no cancellation is observed; when
the first cancellation request arrives during motion k it broadcasts exactly
k+1 progress events 0..k followed by the terminal `cancelled`. In both
cases each progress event for motion i is emitted immediately before motion
i is executed (the full traces equal the expected interleavings) and
exactly one terminal event occurs. -/
theorem c1_amended (plan : Plan) (reqs : Nat → Bool) (f0 f1 : Bool)
    (pm : Motion) (hpm : plan.motions.find? Motion.isPen = some pm) :
    (simulatePlot reqs f0 plan).trace = simExpected reqs plan.motions ∧
    (doPlot allOk reqs f1 plan).trace =
      hwExpected reqs plan.motions pm.initialPos ∧
    broadcasts (simulatePlot reqs f0 plan).trace =
      expectedBroadcasts reqs plan.motions.length ∧
    broadcasts (doPlot allOk reqs f1 plan).trace =
      expectedBroadcasts reqs plan.motions.length := by
  have hs := simulatePlot_char reqs f0 plan
  have hd := doPlot_char reqs f1 plan pm hpm
  refine ⟨?_, ?_, ?_, ?_⟩
  · rw [hs]
  · rw [hd]
  · rw [hs]; exact broadcasts_simExpected reqs plan.motions
  · rw [hd]; exact broadcasts_hwExpected reqs plan.motions pm.initialPos

/-- Witness for C1 (amended) at a concrete 2-motion plan with no
cancellation. -/
theorem c1_witness :
    (simulatePlot (fun _ => false) false
        ⟨[Motion.pen 0 5 1, Motion.xy 2]⟩).trace =
      simExpected (fun _ => false) [Motion.pen 0 5 1, Motion.xy 2] ∧
    (doPlot allOk (fun _ => false) false
        ⟨[Motion.pen 0 5 1, Motion.xy 2]⟩).trace =
      hwExpected (fun _ => false) [Motion.pen 0 5 1, Motion.xy 2]
        (Motion.pen 0 5 1).initialPos ∧
    broadcasts (simulatePlot (fun _ => false) false
        ⟨[Motion.pen 0 5 1, Motion.xy 2]⟩).trace =
      expectedBroadcasts (fun _ => false)
        ([Motion.pen 0 5 1, Motion.xy 2] : List Motion).length ∧
    broadcasts (doPlot allOk (fun _ => false) false
        ⟨[Motion.pen 0 5 1, Motion.xy 2]⟩).trace =
      expectedBroadcasts (fun _ => false)
        ([Motion.pen 0 5 1, Motion.xy 2] : List Motion).length :=
  c1_amended ⟨[Motion.pen 0 5 1, Motion.xy 2]⟩ (fun _ => false) false false
    (Motion.pen 0 5 1) rfl

/-- C2, as stated, is false: `doPlot` has no guaranteed-cleanup block, so a
device operation that rejects mid-plot propagates and skips the idle-wait
and motor-disable entirely. With `executeMotion` rejecting on the 1-motion
plan, the run ends in a device error and neither `waitUntilMotorsIdle` nor
`disableMotors` appears in the trace. -/
theorem c2_counterexample :
    (doPlot execFailEnv (fun _ => false) false
        ⟨[Motion.pen 0 5 1]⟩).result = Except.error Err.dev ∧
    Ev.waitUntilMotorsIdle ∉
      (doPlot execFailEnv (fun _ => false) false ⟨[Motion.pen 0 5 1]⟩).trace ∧
    Ev.disableMotors ∉
      (doPlot execFailEnv (fun _ => false) false ⟨[Motion.pen 0 5 1]⟩).trace :=
  ⟨rfl, by decide, by decide⟩

/-- C2 (amended): on every hardware-path execution in which no device
operation fails (pen motion present), whether it completes naturally or is
cancelled, the run ends with `waitUntilMotorsIdle` followed by
`disableMotors` and returns normally; when a device operation fails the
error propagates instead and the cleanup does not run. -/
theorem c2_amended (reqs : Nat → Bool) (f0 : Bool) (plan : Plan) (pm : Motion)
    (hpm : plan.motions.find? Motion.isPen = some pm) :
    ∃ t, (doPlot allOk reqs f0 plan).trace =
        t ++ [Ev.waitUntilMotorsIdle, Ev.disableMotors] ∧
      (doPlot allOk reqs f0 plan).result = Except.ok () := by
  have hd := doPlot_char reqs f0 plan pm hpm
  refine ⟨Ev.enableMotors 2 :: Ev.setPenHeight pm.initialPos 1000 ::
    hwBody reqs plan.motions, ?_, ?_⟩
  · rw [hd]; simp [hwExpected]
  · rw [hd]

/-- Witness for C2 (amended) at a concrete 1-motion plan. -/
theorem c2_witness :
    ∃ t, (doPlot allOk (fun _ => false) false ⟨[Motion.pen 0 5 1]⟩).trace =
        t ++ [Ev.waitUntilMotorsIdle, Ev.disableMotors] ∧
      (doPlot allOk (fun _ => false) false ⟨[Motion.pen 0 5 1]⟩).result =
        Except.ok () :=
  c2_amended (fun _ => false) false ⟨[Motion.pen 0 5 1]⟩ (Motion.pen 0 5 1) rfl

/-- C3: if the first cancellation request arrives while motion i executes
(pen motion present, no device failure on the hardware path), both paths
run motion i to completion and then stop: the trace is exactly the
interleaving of progress/execution events for motions 0..i, followed on
the hardware path by raising the pen to the fully-up position and then the
`cancelled` broadcast (and the always-run cleanup); no progress event for
index i+1 is broadcast, exactly i+1 motions are executed, and the final
value of the cancellation flag is false (reset after being observed). -/
theorem c3_cancel_semantics (plan : Plan) (reqs : Nat → Bool) (f0 f1 : Bool)
    (i : Nat) (pm : Motion)
    (hpm : plan.motions.find? Motion.isPen = some pm)
    (hi : i < plan.motions.length)
    (hreq : reqs i = true)
    (hfirst : ∀ j, j < i → reqs j = false) :
    (simulatePlot reqs f0 plan).trace =
      interleave simStep (plan.motions.take (i + 1)) 0 ++ [Ev.bCancelled] ∧
    (simulatePlot reqs f0 plan).flag = false ∧
    (doPlot allOk reqs f1 plan).trace =
      Ev.enableMotors 2 :: Ev.setPenHeight pm.initialPos 1000 ::
        (interleave hwStep (plan.motions.take (i + 1)) 0 ++
          [Ev.setPenHeight (penPctToPos 0) 1000, Ev.bCancelled,
           Ev.waitUntilMotorsIdle, Ev.disableMotors]) ∧
    (doPlot allOk reqs f1 plan).flag = false ∧
    Ev.progress (i + 1) ∉ (simulatePlot reqs f0 plan).trace ∧
    Ev.progress (i + 1) ∉ (doPlot allOk reqs f1 plan).trace ∧
    ((doPlot allOk reqs f1 plan).trace.filter Ev.isExec).length = i + 1 := by
  have hc : findCancel reqs 0 plan.motions.length = some i :=
    findCancel_intro reqs plan.motions.length 0 i (by omega) (by omega) hreq
      (fun j _ hj => hfirst j hj)
  have hs := simulatePlot_char reqs f0 plan
  have hd := doPlot_char reqs f1 plan pm hpm
  have hlen : (plan.motions.take (i + 1)).length = i + 1 := by
    rw [List.length_take]; omega
  have hstr : (simulatePlot reqs f0 plan).trace =
      interleave simStep (plan.motions.take (i + 1)) 0 ++ [Ev.bCancelled] := by
    rw [hs]; simp [simExpected, hc]
  have hdtr : (doPlot allOk reqs f1 plan).trace =
      Ev.enableMotors 2 :: Ev.setPenHeight pm.initialPos 1000 ::
        (interleave hwStep (plan.motions.take (i + 1)) 0 ++
          [Ev.setPenHeight (penPctToPos 0) 1000, Ev.bCancelled,
           Ev.waitUntilMotorsIdle, Ev.disableMotors]) := by
    rw [hd]; simp [hwExpected, hwBody, hc]
  refine ⟨hstr, by rw [hs], hdtr, by rw [hd], ?_, ?_, ?_⟩
  · rw [hstr]
    intro hmem
    rcases List.mem_append.mp hmem with hmem | hmem
    · have hb := (progress_interleave_sim_mem _ 0 (i + 1) hmem).2
      rw [hlen] at hb
      omega
    · simp at hmem
  · rw [hdtr]
    intro hmem
    simp only [List.mem_cons, List.mem_append, List.not_mem_nil, or_false] at hmem
    rcases hmem with h | h | h | h | h | h | h
    · cases h
    · cases h
    · have hb := (progress_interleave_hw_mem _ 0 (i + 1) h).2
      rw [hlen] at hb
      omega
    · cases h
    · cases h
    · cases h
    · cases h
  · rw [hdtr]
    simp [List.filter_append, Ev.isExec, execCount_interleave_hw, hlen]

/-- Witness for C3 at a concrete 3-motion plan whose cancellation request
arrives during motion 1. -/
theorem c3_witness :
    (simulatePlot (fun j => j == 1) false
        ⟨[Motion.pen 0 5 1, Motion.xy 2, Motion.xy 3]⟩).trace =
      interleave simStep
        (([Motion.pen 0 5 1, Motion.xy 2, Motion.xy 3] : List Motion).take 2)
        0 ++ [Ev.bCancelled] ∧
    (simulatePlot (fun j => j == 1) false
        ⟨[Motion.pen 0 5 1, Motion.xy 2, Motion.xy 3]⟩).flag = false ∧
    (doPlot allOk (fun j => j == 1) false
        ⟨[Motion.pen 0 5 1, Motion.xy 2, Motion.xy 3]⟩).trace =
      Ev.enableMotors 2 :: Ev.setPenHeight (Motion.pen 0 5 1).initialPos 1000 ::
        (interleave hwStep
          (([Motion.pen 0 5 1, Motion.xy 2, Motion.xy 3] : List Motion).take 2)
          0 ++
          [Ev.setPenHeight (penPctToPos 0) 1000, Ev.bCancelled,
           Ev.waitUntilMotorsIdle, Ev.disableMotors]) ∧
    (doPlot allOk (fun j => j == 1) false
        ⟨[Motion.pen 0 5 1, Motion.xy 2, Motion.xy 3]⟩).flag = false ∧
    Ev.progress 2 ∉ (simulatePlot (fun j => j == 1) false
        ⟨[Motion.pen 0 5 1, Motion.xy 2, Motion.xy 3]⟩).trace ∧
    Ev.progress 2 ∉ (doPlot allOk (fun j => j == 1) false
        ⟨[Motion.pen 0 5 1, Motion.xy 2, Motion.xy 3]⟩).trace ∧
    ((doPlot allOk (fun j => j == 1) false
        ⟨[Motion.pen 0 5 1, Motion.xy 2, Motion.xy 3]⟩).trace.filter
      Ev.isExec).length = 2 :=
  c3_cancel_semantics ⟨[Motion.pen 0 5 1, Motion.xy 2, Motion.xy 3]⟩
    (fun j => j == 1) false false 1 (Motion.pen 0 5 1) rfl (by decide) rfl
    (fun j hj => by
      have hj0 : j = 0 := by omega
      subst hj0
      rfl)

/-- C4, as stated, is false: for a plan containing no pen motion the
hardware path throws while reading `initialPos` of the (absent) first pen
motion, before any broadcast — its observable broadcast sequence is empty —
while the simulation path broadcasts the full progress/finished sequence
for the same plan. -/
theorem c4_counterexample :
    broadcasts (doPlot allOk (fun _ => false) false
        ⟨[Motion.xy 1]⟩).trace = [] ∧
    (doPlot allOk (fun _ => false) false ⟨[Motion.xy 1]⟩).result =
      Except.error Err.typeError ∧
    broadcasts (simulatePlot (fun _ => false) false
        ⟨[Motion.xy 1]⟩).trace = [Ev.progress 0, Ev.bFinished] ∧
    broadcasts (doPlot allOk (fun _ => false) false
        ⟨[Motion.xy 1]⟩).trace ≠
      broadcasts (simulatePlot (fun _ => false) false
        ⟨[Motion.xy 1]⟩).trace :=
  ⟨rfl, rfl, rfl, by decide⟩

/-- C4 (amended): for every plan containing at least one pen motion and
every pattern of cancellation requests, the hardware path with all device
operations succeeding broadcasts exactly the same progress/cancelled/
finished sequence as the simulation path, and the hardware trace differs
only by device commands: erasing motor/pen commands and replacing each
`executeMotion` by the sleep for that motion's estimated duration yields
precisely the simulation trace. Both runs return normally. -/
theorem c4_amended (plan : Plan) (reqs : Nat → Bool) (f0 f1 : Bool)
    (pm : Motion) (hpm : plan.motions.find? Motion.isPen = some pm) :
    (doPlot allOk reqs f1 plan).trace.filterMap simView =
      (simulatePlot reqs f0 plan).trace ∧
    broadcasts (doPlot allOk reqs f1 plan).trace =
      broadcasts (simulatePlot reqs f0 plan).trace ∧
    (doPlot allOk reqs f1 plan).result = Except.ok () ∧
    (simulatePlot reqs f0 plan).result = Except.ok () := by
  have hs := simulatePlot_char reqs f0 plan
  have hd := doPlot_char reqs f1 plan pm hpm
  refine ⟨?_, ?_, ?_, ?_⟩
  · rw [hs, hd]
    exact filterMap_hwExpected reqs plan.motions pm.initialPos
  · rw [hs, hd]
    show broadcasts (hwExpected reqs plan.motions pm.initialPos) =
      broadcasts (simExpected reqs plan.motions)
    rw [broadcasts_hwExpected, broadcasts_simExpected]
  · rw [hd]
  · rw [hs]

/-- Witness for C4 (amended) at a concrete 2-motion plan with a
cancellation request during motion 0. -/
theorem c4_witness :
    (doPlot allOk (fun j => j == 0) false
        ⟨[Motion.pen 0 5 1, Motion.xy 2]⟩).trace.filterMap simView =
      (simulatePlot (fun j => j == 0) false
        ⟨[Motion.pen 0 5 1, Motion.xy 2]⟩).trace ∧
    broadcasts (doPlot allOk (fun j => j == 0) false
        ⟨[Motion.pen 0 5 1, Motion.xy 2]⟩).trace =
      broadcasts (simulatePlot (fun j => j == 0) false
        ⟨[Motion.pen 0 5 1, Motion.xy 2]⟩).trace ∧
    (doPlot allOk (fun j => j == 0) false
        ⟨[Motion.pen 0 5 1, Motion.xy 2]⟩).result = Except.ok () ∧
    (simulatePlot (fun j => j == 0) false
        ⟨[Motion.pen 0 5 1, Motion.xy 2]⟩).result = Except.ok () :=
  c4_amended ⟨[Motion.pen 0 5 1, Motion.xy 2]⟩ (fun j => j == 0) false false
    (Motion.pen 0 5 1) rfl

theorem supRun_append :
    ∀ a b : List SupStep, supRun (a ++ b) = supRun a ++ supRun b := by
  intro a
  induction a with
  | nil => intro b; rfl
  | cons s rest ih => intro b; simp [supRun, ih]

theorem supRun_fails_no_broadcast :
    ∀ fails : List SupStep, (∀ s ∈ fails, s.isFail = true) →
      broadcasts (supRun fails) = [] := by
  intro fails
  induction fails with
  | nil => intro _; rfl
  | cons s rest ih =>
    intro h
    rw [show supRun (s :: rest) = supStep s ++ supRun rest from rfl,
      broadcasts_append, ih (fun x hx => h x (List.mem_cons_of_mem _ hx))]
    have hs := h s (List.mem_cons_self s rest)
    cases s with
    | noCandidate => rfl
    | openFail => rfl
    | openOk a2 => simp [SupStep.isFail] at hs

/-- C5: the supervisor loop survives any finite sequence of failed
iterations: each failed iteration (no candidate found, or an open that
rejected and was caught) only backs off — it contains the fixed 5000 ms
sleep and contributes no broadcast — and the loop goes on, so a later
successful open still yields the Connected transition, broadcast as a `dev`
message carrying the opened device's address, followed (once the link
closes) by the Absent transition broadcast with the null marker. -/
theorem c5_supervisor (fails : List SupStep) (a : String)
    (h : ∀ s ∈ fails, s.isFail = true) :
    supRun (fails ++ [SupStep.openOk a]) =
      supRun fails ++ [Ev.bDev (some a), Ev.bDev none] ∧
    broadcasts (supRun fails) = [] ∧
    ∀ s ∈ fails, Ev.sleep 5000 ∈ supStep s := by
  refine ⟨?_, supRun_fails_no_broadcast fails h, ?_⟩
  · rw [supRun_append]
    rfl
  · intro s hs
    have hf := h s hs
    cases s with
    | noCandidate => simp [supStep]
    | openFail => simp [supStep]
    | openOk a2 => simp [SupStep.isFail] at hf

/-- Witness for C5: one empty discovery and one failed open, then a
successful open. -/
theorem c5_witness :
    supRun ([SupStep.noCandidate, SupStep.openFail] ++
        [SupStep.openOk "ttyACM0"]) =
      supRun [SupStep.noCandidate, SupStep.openFail] ++
        [Ev.bDev (some "ttyACM0"), Ev.bDev none] ∧
    broadcasts (supRun [SupStep.noCandidate, SupStep.openFail]) = [] ∧
    ∀ s ∈ ([SupStep.noCandidate, SupStep.openFail] : List SupStep),
      Ev.sleep 5000 ∈ supStep s :=
  c5_supervisor [SupStep.noCandidate, SupStep.openFail] "ttyACM0" (by decide)

theorem broadcastFn_length (sendOk : Nat → Bool) :
    ∀ clients : List Nat,
      (broadcastFn sendOk clients).length = clients.length := by
  intro clients
  induction clients with
  | nil => rfl
  | cons c rest ih => simp [broadcastFn, ih]

theorem delivered_mem_broadcastFn (sendOk : Nat → Bool) (c : Nat) :
    ∀ clients : List Nat, c ∈ clients → sendOk c = true →
      SendOutcome.delivered c ∈ broadcastFn sendOk clients := by
  intro clients
  induction clients with
  | nil => intro h _; simp at h
  | cons a rest ih =>
    intro hc hok
    rcases List.mem_cons.mp hc with heq | hmem
    · subst heq
      simp [broadcastFn, wsSend, hok]
    · exact List.mem_cons_of_mem _ (ih hmem hok)

/-- C6: in every call to `broadcast`, every observer whose send succeeds
receives the event, no matter which other observers' sends throw — each
throw is caught and logged per observer — and the iteration always visits
every registered observer (one outcome per observer, and the function is
total, so no error reaches the caller). -/
theorem c6_broadcast_isolation (clients : List Nat) (sendOk : Nat → Bool)
    (c : Nat) (hc : c ∈ clients) (hok : sendOk c = true) :
    SendOutcome.delivered c ∈ broadcastFn sendOk clients ∧
    (broadcastFn sendOk clients).length = clients.length :=
  ⟨delivered_mem_broadcastFn sendOk c clients hc hok,
   broadcastFn_length sendOk clients⟩

/-- Witness for C6: client 0's send throws, client 1 is still delivered. -/
theorem c6_witness :
    SendOutcome.delivered 1 ∈ broadcastFn (fun c => c == 1) [0, 1] ∧
    (broadcastFn (fun c => c == 1) [0, 1]).length =
      ([0, 1] : List Nat).length :=
  c6_broadcast_isolation [0, 1] (fun c => c == 1) 1 (by decide) rfl

theorem finishUp_trace_eq (env : HwEnv) (t : List Ev) (f : Bool) :
    (finishUp env t f).trace =
      t ++ (if env.waitIdleOk then [Ev.waitUntilMotorsIdle, Ev.disableMotors]
            else [Ev.waitUntilMotorsIdle]) := by
  cases hw : env.waitIdleOk <;> cases hd : env.disableOk <;>
    simp [finishUp, hw, hd]

theorem doPlot_trace_shape (env : HwEnv) (reqs : Nat → Bool) (f0 : Bool)
    (plan : Plan) (pm : Motion)
    (hpm : plan.motions.find? Motion.isPen = some pm) :
    (doPlot env reqs f0 plan).trace = [Ev.enableMotors 2] ∨
    ∃ rest, (doPlot env reqs f0 plan).trace =
      Ev.enableMotors 2 :: Ev.setPenHeight pm.initialPos 1000 :: rest := by
  cases he : env.enableOk with
  | false => left; simp [doPlot, he]
  | true =>
    right
    cases hip : env.initialPenOk with
    | false => exact ⟨[], by simp [doPlot, he, hpm, hip]⟩
    | true =>
      cases hx : (doPlotLoop env reqs plan.motions 0 false).2.1 with
      | failed =>
        refine ⟨(doPlotLoop env reqs plan.motions 0 false).1, ?_⟩
        simp [doPlot, he, hpm, hip, hx]
      | completed =>
        refine ⟨(doPlotLoop env reqs plan.motions 0 false).1 ++
          ([Ev.bFinished] ++
            (if env.waitIdleOk then [Ev.waitUntilMotorsIdle, Ev.disableMotors]
             else [Ev.waitUntilMotorsIdle])), ?_⟩
        simp [doPlot, he, hpm, hip, hx, finishUp_trace_eq]
      | cancelled =>
        cases hrp : env.raisePenOk with
        | false =>
          refine ⟨(doPlotLoop env reqs plan.motions 0 false).1 ++
            [Ev.setPenHeight (penPctToPos 0) 1000], ?_⟩
          simp [doPlot, he, hpm, hip, hx, hrp]
        | true =>
          refine ⟨(doPlotLoop env reqs plan.motions 0 false).1 ++
            ([Ev.setPenHeight (penPctToPos 0) 1000] ++ ([Ev.bCancelled] ++
              (if env.waitIdleOk then [Ev.waitUntilMotorsIdle, Ev.disableMotors]
               else [Ev.waitUntilMotorsIdle]))), ?_⟩
          simp [doPlot, he, hpm, hip, hx, hrp, finishUp_trace_eq]

/-- C7: on every hardware-path execution of a plan containing a pen motion —
under every pattern of device failures and cancellation requests — any
motion execution in the trace is strictly preceded by the command setting
the pen to the initial position of the plan's first pen motion at the
default rate 1000: a known pen state is established before any drawing
motion runs, regardless of plan ordering. -/
theorem c7_pen_first (env : HwEnv) (reqs : Nat → Bool) (f0 : Bool)
    (plan : Plan) (pm : Motion)
    (hpm : plan.motions.find? Motion.isPen = some pm)
    (pre suf : List Ev) (m : Motion)
    (hsplit : (doPlot env reqs f0 plan).trace =
      pre ++ Ev.executeMotion m :: suf) :
    Ev.setPenHeight pm.initialPos 1000 ∈ pre := by
  rcases doPlot_trace_shape env reqs f0 plan pm hpm with hshape | ⟨rest, hshape⟩
  · rw [hshape] at hsplit
    have hmem : Ev.executeMotion m ∈ ([Ev.enableMotors 2] : List Ev) := by
      rw [hsplit]
      exact List.mem_append_right _ (List.mem_cons_self _ _)
    simp at hmem
  · rw [hshape] at hsplit
    cases pre with
    | nil => simp at hsplit
    | cons e1 pre1 =>
      cases pre1 with
      | nil => simp at hsplit
      | cons e2 pre2 =>
        simp only [List.cons_append, List.cons.injEq] at hsplit
        obtain ⟨h1, h2, h3⟩ := hsplit
        subst h2
        exact List.mem_cons_of_mem _ (List.mem_cons_self _ _)

/-- Witness for C7: for the 1-motion plan `[pen 2 5 1]` with no failures,
the split of the trace around its single motion execution has the initial
pen command in the prefix. -/
theorem c7_witness :
    Ev.setPenHeight (Motion.pen 2 5 1).initialPos 1000 ∈
      [Ev.enableMotors 2, Ev.setPenHeight 2 1000, Ev.progress 0] :=
  c7_pen_first allOk (fun _ => false) false ⟨[Motion.pen 2 5 1]⟩
    (Motion.pen 2 5 1) rfl
    [Ev.enableMotors 2, Ev.setPenHeight 2 1000, Ev.progress 0]
    [Ev.bFinished, Ev.waitUntilMotorsIdle, Ev.disableMotors]
    (Motion.pen 2 5 1) (by decide)

/-- C8: the connection handler sends a newly registering observer exactly
one message — the `dev` message carrying the current connection state (the
connected device's path, or null) — regardless of whether any transition
has occurred, and registers the observer in the client list. -/
theorem c8_initial_dev (devPath : Option String) (ws : Nat) :
    (onConnection devPath ws).filterMap RegAction.sentMsg =
      [Ev.bDev devPath] ∧
    RegAction.addClient ws ∈ onConnection devPath ws := by
  constructor
  · rfl
  · simp [onConnection]

/-- C9: the `/plot` handler acquires the wake lock before the execution
starts; when acquisition succeeded the release runs on every exit path —
the trace is acquire, then the whole plot run (hardware or simulated, any
failure pattern, any cancellation), then release — and when acquisition
failed only a warning is logged and the plot still runs; in both cases the
plot's own outcome (including a propagated device error) is the handler's
outcome. -/
theorem c9_wake_lock (wakeOk ebbPresent : Bool) (env : HwEnv)
    (reqs : Nat → Bool) (f0 : Bool) (plan : Plan) :
    (wakeOk = true →
      (plotEndpoint wakeOk ebbPresent env reqs f0 plan).1 =
        Ev.acquireWake :: ((plotRun ebbPresent env reqs f0 plan).trace ++
          [Ev.releaseWake])) ∧
    (wakeOk = false →
      (plotEndpoint wakeOk ebbPresent env reqs f0 plan).1 =
        Ev.warnWakeFailed :: (plotRun ebbPresent env reqs f0 plan).trace) ∧
    (plotEndpoint wakeOk ebbPresent env reqs f0 plan).2 =
      (plotRun ebbPresent env reqs f0 plan).result := by
  cases wakeOk with
  | true =>
    refine ⟨fun _ => ?_, fun h => by simp at h, rfl⟩
    simp [plotEndpoint]
  | false =>
    refine ⟨fun h => by simp at h, fun _ => ?_, rfl⟩
    simp [plotEndpoint]

/-- Witness for C9: a simulated 1-motion plot with the wake lock
acquired. -/
theorem c9_witness :
    (plotEndpoint true false allOk (fun _ => false) false
        ⟨[Motion.xy 1]⟩).1 =
      Ev.acquireWake :: ((plotRun false allOk (fun _ => false) false
        ⟨[Motion.xy 1]⟩).trace ++ [Ev.releaseWake]) :=
  (c9_wake_lock true false allOk (fun _ => false) false ⟨[Motion.xy 1]⟩).1 rfl

/-- C10: with no device connected, an inbound `limp` or `setPenHeight`
command performs no event at all — no device operation, no reply, no
broadcast (the handler is total, so no error is raised either) — while
`ping` still gets its `pong` reply. -/
theorem c10_disconnected_noop (h : Int) (r : Nat) :
    onMessage false InMsg.limp = [] ∧
    onMessage false (InMsg.setPenHeight h r) = [] ∧
    onMessage false InMsg.ping = [Ev.pong] :=
  ⟨rfl, rfl, rfl⟩

end Saxi
